import Mathlib

/-!
Verification development for the scraping service in `src/src/main.py`
(FastAPI + requests + BeautifulSoup + redis).

The Python code is shallowly embedded: each method of `Scraper` becomes a
Lean function over explicit state.  External effects (HTTP requests, the
redis connection, the filesystem, `time.sleep`, console output) are made
explicit: backends are functions describing the outcome of each external
call, and the mutable stores (redis, filesystem, notifications) are record
fields threaded through the functions.  Raised Python exceptions become
`Except` error values.
-/

namespace AtlysScrape

/-- The pydantic model `Product` (main.py lines 42-45): three string fields
scraped from one listing. -/
structure Product where
  product_title : String
  product_price : String
  path_to_image : String
deriving Repr, DecidableEq

/-- Python `range` with one `int` argument starting from `a`:
`rangeFrom a n = [a, a+1, ..., a+n-1]`. -/
def rangeFrom (a : Int) : Nat → List Int
  | 0 => []
  | n+1 => a :: rangeFrom (a+1) n

/-- Python `range(n)` for an `int` argument `n`: `[0, 1, ..., n-1]`,
empty when `n ≤ 0` (hence `Int.toNat`). -/
def pyRange (n : Int) : List Int := rangeFrom 0 n.toNat

/-! ## Fetcher: `Scraper.fetch_page` (main.py lines 68-78) -/

/-- Outcome of one `requests.get(url, proxies=proxies)` followed by
`response.raise_for_status()`: either the response content, or a
`RequestException` carrying an error description. -/
inductive AttemptOutcome where
  | success (content : String)
  | failure (err : String)
deriving Repr, DecidableEq

/-- Overall result of a `fetch_page` call: `return response.content`, fall
off the end of the loop and implicitly return Python `None`, or `raise e`. -/
inductive FetchResult where
  | content (c : String)
  | noneResult
  | raised (e : String)
deriving Repr, DecidableEq

/-- Observable trace of one `fetch_page` call: how many `requests.get` calls
were made, the `time.sleep` durations performed (in order), and the result. -/
structure FetchTrace where
  requests : Nat
  sleeps : List Int
  result : FetchResult
deriving Repr, DecidableEq

/-- Body of the loop `for attempt in range(self.retries)` in
`Scraper.fetch_page`: on success return the content; on a `RequestException`,
sleep `self.delay` and continue when `attempt < self.retries - 1`, otherwise
re-raise the exception.  The `backend` function gives the outcome of the
attempt with the given index. -/
def fetch_page_go (backend : Int → AttemptOutcome) (retries delay : Int) :
    List Int → FetchTrace
  | [] => ⟨0, [], .noneResult⟩
  | attempt :: rest =>
    match backend attempt with
    | .success c => ⟨1, [], .content c⟩
    | .failure e =>
      if attempt < retries - 1 then
        let t := fetch_page_go backend retries delay rest
        ⟨t.requests + 1, delay :: t.sleeps, t.result⟩
      else
        ⟨1, [], .raised e⟩

/-- `Scraper.fetch_page` (main.py lines 68-78): runs the attempt loop over
`range(self.retries)`. -/
def fetch_page (backend : Int → AttemptOutcome) (retries delay : Int) :
    FetchTrace :=
  fetch_page_go backend retries delay (pyRange retries)

/-! ## Parser: `Scraper.parse_page` (main.py lines 80-92)

The raw HTML text is modelled by the structure the parser reads off it: the
list of `div.product-inner` listing containers in document order, each with
its (optional) nested title text, price text and image `src` attribute.  A
`find` that locates nothing returns Python `None`, modelled as `Option`;
calling `.text` / indexing `["src"]` on `None` raises, which the spec names
a `MalformedPage` error. -/

/-- Python `str.strip()`: drop leading and trailing whitespace characters
(defined over the character list so that it evaluates by kernel reduction). -/
def pyStrip (s : String) : String :=
  ⟨((s.data.dropWhile Char.isWhitespace).reverse.dropWhile Char.isWhitespace).reverse⟩

/-- One located `div.product-inner` listing container.  Each field holds the
corresponding sub-element value when the sub-element is present:
`h2.woo-loop-product__title` text, `span.woocommerce-Price-amount` text, and
the `src` attribute of `img.attachment-woocommerce_thumbnail`. -/
structure Listing where
  title : Option String
  price : Option String
  imageSrc : Option String
deriving Repr, DecidableEq

/-- A fetched page, as seen by the parser: its listing containers in
document order. -/
structure Page where
  listings : List Listing
deriving Repr, DecidableEq

/-- Parse failure: a located listing container is missing an expected
sub-element (the `MalformedPage` error of the spec; in the Python source an
`AttributeError`/`TypeError` raised by using a `find` result that is `None`). -/
inductive ParseError where
  | malformed
deriving Repr, DecidableEq

/-- Loop body of `parse_page` for one listing container: extract and strip
title text, price text and image `src`; a missing sub-element raises. -/
def parseListing (l : Listing) : Except ParseError Product :=
  match l.title, l.price, l.imageSrc with
  | some t, some pr, some im => .ok ⟨pyStrip t, pyStrip pr, pyStrip im⟩
  | _, _, _ => .error .malformed

/-- The `for product in products` loop of `parse_page`: results are appended
in document order; the first missing sub-element raises out of the loop. -/
def parseListings : List Listing → Except ParseError (List Product)
  | [] => .ok []
  | l :: rest =>
    match parseListing l with
    | .error e => .error e
    | .ok p =>
      match parseListings rest with
      | .error e => .error e
      | .ok ps => .ok (p :: ps)

/-- `Scraper.parse_page` (main.py lines 80-92). -/
def parse_page (page : Page) : Except ParseError (List Product) :=
  parseListings page.listings

/-- The product a well-formed listing container parses to: every field is
present and stripped of surrounding whitespace. -/
def extractListing (l : Listing) : Product :=
  ⟨pyStrip (l.title.getD ""), pyStrip (l.price.getD ""), pyStrip (l.imageSrc.getD "")⟩

/-! ## ChangeCache: `Scraper.cache_product` (main.py lines 94-104)

The redis store maps string keys to the JSON-serialized product
(`json.dumps(product.dict())`).  Since this serialization round-trips the
three string fields exactly (`json.loads` recovers the dict the comparison
reads `product_price` from), the stored value is modelled at value level as
the `Product` itself.  A stored value is a non-empty JSON object string,
hence always truthy in the `if cached_product:` test. -/

/-- The redis key/value store, as an association list (most recent binding
first). -/
structure RedisState where
  store : List (String × Product)
deriving Repr, DecidableEq

/-- `redis_client.get(k)`: the stored value, or Python `None` when the key
is absent. -/
def RedisState.get (r : RedisState) (k : String) : Option Product :=
  (r.store.find? (fun kv => kv.1 == k)).map Prod.snd

/-- `redis_client.set(k, v)`: bind `k` to `v`, replacing any prior binding. -/
def RedisState.set (r : RedisState) (k : String) (v : Product) : RedisState :=
  ⟨(k, v) :: r.store.filter (fun kv => kv.1 != k)⟩

/-- The cache key `f"product:{product.product_title}"` (main.py line 95). -/
def product_key (p : Product) : String := "product:" ++ p.product_title

/-- `Scraper.cache_product` (main.py lines 94-104): look up the entry keyed
by the product title; if present with equal `product_price`, report no
update; otherwise store the product and report an update. -/
def cache_product (redis : RedisState) (product : Product) : Bool × RedisState :=
  match redis.get (product_key product) with
  | some cached =>
    if cached.product_price == product.product_price then
      (false, redis)
    else
      (true, redis.set (product_key product) product)
  | none => (true, redis.set (product_key product) product)

/-! ## Snapshot writer: `Scraper.save_to_json` (main.py lines 106-115)

The filesystem is modelled by the set of existing directories and the files
written by the program.  The snapshot file's content is the serialized
product list `json.dump([product.dict() for product in products], ...)`,
modelled at value level as the product list itself (the serialization is a
function of exactly that list, and opening with mode `'w'` truncates, so
the resulting artifact is a function of the written list alone).

CPython behaviour of the path functions used, mirrored here:
`os.path.dirname` drops the last `/`-separated component;
`os.path.exists('')` is `False`; and `os.makedirs('')` raises
`FileNotFoundError` (so `save_to_json` raises when the configured path has
no directory component, e.g. the constructor default
`'scraped_products.json'`). -/

/-- Filesystem state: directories that exist, and file contents keyed by
path (a snapshot file's content is the product list written to it). -/
structure FS where
  dirs : List String
  files : List (String × List Product)
deriving Repr, DecidableEq

/-- Content of the file at `p`, when one has been written. -/
def FS.getFile (fs : FS) (p : String) : Option (List Product) :=
  (fs.files.find? (fun kv => kv.1 == p)).map Prod.snd

/-- `open(p, 'w')` + `json.dump(c, file)`: truncate and write, so the file's
content afterwards is exactly `c`. -/
def FS.writeFile (fs : FS) (p : String) (c : List Product) : FS :=
  ⟨fs.dirs, (p, c) :: fs.files.filter (fun kv => kv.1 != p)⟩

/-- `os.path.dirname`: everything before the final path separator (empty
for a bare filename).  Defined over the character list so that it evaluates
by kernel reduction. -/
def dirname (p : String) : String :=
  ⟨((p.data.reverse.dropWhile (fun c => c != '/')).drop 1).reverse⟩

/-- `os.path.exists(p)` restricted to what the program checks: whether the
directory `p` exists; `os.path.exists('')` is `False`. -/
def FS.pathExists (fs : FS) (p : String) : Bool :=
  p != "" && decide (p ∈ fs.dirs)

/-- Failure of `os.makedirs` (raised as `FileNotFoundError` on the empty
path). -/
inductive SaveError where
  | fileNotFound
deriving Repr, DecidableEq

/-- `os.makedirs(p)`: create the directory (and, in CPython, any missing
parents — subsumed here by recording `p` itself); raises
`FileNotFoundError` when `p` is the empty string. -/
def makedirs (fs : FS) (p : String) : Except SaveError FS :=
  if p = "" then .error .fileNotFound
  else .ok ⟨p :: fs.dirs, fs.files⟩

/-- `Scraper.save_to_json` (main.py lines 106-115): ensure the parent
directory of `json_file_path` exists, then overwrite the file with the
serialized product list. -/
def save_to_json (json_file_path : String) (fs : FS) (products : List Product) :
    Except SaveError FS :=
  let directory := dirname json_file_path
  if fs.pathExists directory then
    .ok (fs.writeFile json_file_path products)
  else
    match makedirs fs directory with
    | .error e => .error e
    | .ok fs1 => .ok (fs1.writeFile json_file_path products)

/-! ## Orchestrator: `Scraper.scrape` (main.py lines 117-136)

The scraper's collaborators are abstracted as an environment: `base_url`
models `self.base_url.format(page)` (substituting the page index into the
URL template), and `fetchPage` models the observable behaviour of
`self.fetch_page(url, proxies)` for the run — either the fetched content
(given to the parser, hence modelled as the `Page` the parser reads off
it) or a raised `RequestException`.  The per-invocation mutable world is a
`ScrapeState`: the redis store, the filesystem, the notifier's output so
far, and the trace of fetches performed (page index and URL, in order). -/

/-- Errors that abort a `scrape` invocation: a fetch failure propagated out
of `fetch_page`, a `MalformedPage` parse failure, or a snapshot-write
failure. -/
inductive ScrapeError where
  | fetchFailure (e : String)
  | malformedPage
  | persistenceFailure
deriving Repr, DecidableEq

/-- The scraper's external collaborators for one run. -/
structure ScrapeEnv where
  base_url : Int → String
  fetchPage : String → Option (String × String) → Except String Page

/-- World state threaded through one `scrape` invocation. -/
structure ScrapeState where
  redis : RedisState
  fs : FS
  notifications : List String
  fetched : List (Int × String)
deriving Repr, DecidableEq

/-- `proxies = {"http": proxy, "https": proxy} if proxy else None`
(main.py line 119); the empty string is falsy in Python. -/
def mkProxies (proxy : Option String) : Option (String × String) :=
  match proxy with
  | some p => if p = "" then none else some (p, p)
  | none => none

/-- Python `limit_pages or 10` (main.py line 121): `10` when `limit_pages`
is `None` or the falsy value `0`, else `limit_pages`. -/
def limitOr10 (limit_pages : Option Int) : Int :=
  match limit_pages with
  | none => 10
  | some k => if k = 0 then 10 else k

/-- The page indices of `range(1, (limit_pages or 10) + 1)`. -/
def pagesToVisit (limit_pages : Option Int) : List Int :=
  rangeFrom 1 (limitOr10 limit_pages).toNat

/-- The `if limit_pages and page >= limit_pages: break` test (main.py
line 130); `limit_pages` of `None` or `0` is falsy. -/
def breakCond (limit_pages : Option Int) (page : Int) : Bool :=
  match limit_pages with
  | none => false
  | some k => if k = 0 then false else decide (page ≥ k)

/-- The inner loop `for product in page_results` (main.py lines 126-128):
run `cache_product` on each product, appending to `results` those for
which it returns `True`. -/
def cacheAll (redis : RedisState) (acc : List Product) :
    List Product → List Product × RedisState
  | [] => (acc, redis)
  | p :: rest =>
    let r := cache_product redis p
    if r.1 then cacheAll r.2 (acc ++ [p]) rest
    else cacheAll r.2 acc rest

/-- The page loop of `Scraper.scrape` (main.py lines 121-131): per page,
build the URL, fetch (recording the fetch in the trace), parse, filter the
parsed products through the cache, then stop if the break condition holds.
A raised fetch or parse error aborts the loop, carrying the state reached
so far. -/
def scrapeLoop (env : ScrapeEnv) (limit_pages : Option Int)
    (proxies : Option (String × String)) :
    List Int → List Product → ScrapeState →
    Except (ScrapeError × ScrapeState) (List Product × ScrapeState)
  | [], results, st => .ok (results, st)
  | page :: rest, results, st =>
    let url := env.base_url page
    let st1 : ScrapeState :=
      ⟨st.redis, st.fs, st.notifications, st.fetched ++ [(page, url)]⟩
    match env.fetchPage url proxies with
    | .error e => .error (.fetchFailure e, st1)
    | .ok content =>
      match parse_page content with
      | .error _ => .error (.malformedPage, st1)
      | .ok page_results =>
        let cr := cacheAll st1.redis results page_results
        let st2 : ScrapeState := ⟨cr.2, st1.fs, st1.notifications, st1.fetched⟩
        if breakCond limit_pages page then .ok (cr.1, st2)
        else scrapeLoop env limit_pages proxies rest cr.1 st2

/-- The notification message `f"Scraped {len(results)} products."`
(main.py line 135). -/
def scrapeMessage (results : List Product) : String :=
  "Scraped " ++ toString results.length ++ " products."

/-- `Scraper.scrape` (main.py lines 117-136): run the page loop from an
empty result list, then persist the accumulated changed products, then
notify, then return the changed products.  Any error propagates uncaught,
carrying the state at the point of failure. -/
def scrape (env : ScrapeEnv) (json_file_path : String)
    (limit_pages : Option Int) (proxy : Option String) (st : ScrapeState) :
    Except (ScrapeError × ScrapeState) (List Product × ScrapeState) :=
  match scrapeLoop env limit_pages (mkProxies proxy) (pagesToVisit limit_pages) [] st with
  | .error es => .error es
  | .ok (results, st1) =>
    match save_to_json json_file_path st1.fs results with
    | .error _ => .error (.persistenceFailure, st1)
    | .ok fs1 =>
      .ok (results,
        ⟨st1.redis, fs1, st1.notifications ++ [scrapeMessage results], st1.fetched⟩)

/-- State component of a `scrape`/`scrapeLoop` result, whether it succeeded
or aborted. -/
def stateOf (r : Except (ScrapeError × ScrapeState) (List Product × ScrapeState)) :
    ScrapeState :=
  match r with
  | .ok x => x.2
  | .error x => x.2

/-- The fetch trace of a `scrape`/`scrapeLoop` result. -/
def fetchedOf (r : Except (ScrapeError × ScrapeState) (List Product × ScrapeState)) :
    List (Int × String) :=
  (stateOf r).fetched

/-- The prefix of the page list the loop actually processes: everything up
to and including the first page where the break test fires. -/
def takeUntilBreak (lp : Option Int) : List Int → List Int
  | [] => []
  | p :: rest => if breakCond lp p then [p] else p :: takeUntilBreak lp rest

/-- All products the given pages fetch and parse to, in processing order
(pages that fail to fetch or parse contribute nothing — in a successful
loop there are none). -/
def pageProducts (env : ScrapeEnv) (proxies : Option (String × String))
    (page : Int) : List Product :=
  match env.fetchPage (env.base_url page) proxies with
  | .error _ => []
  | .ok pg =>
    match parse_page pg with
    | .error _ => []
    | .ok ps => ps

/-- Concatenation of `pageProducts` over a page list, in order. -/
def catalogProducts (env : ScrapeEnv) (proxies : Option (String × String)) :
    List Int → List Product
  | [] => []
  | p :: rest => pageProducts env proxies p ++ catalogProducts env proxies rest

/-- The catalog assigns a single price per title: any two products parsed
during the run that share a title share a price (the spec's identity
invariant: two products are the same listing iff their titles are equal,
and a listing carries one price at a time). -/
def PriceConsistent (ps : List Product) : Prop :=
  ∀ p ∈ ps, ∀ q ∈ ps, p.product_title = q.product_title →
    p.product_price = q.product_price

instance decPriceConsistent (ps : List Product) : Decidable (PriceConsistent ps) :=
  inferInstanceAs (Decidable (∀ p ∈ ps, ∀ q ∈ ps,
    p.product_title = q.product_title → p.product_price = q.product_price))

/-- The cache holds an entry for `p`'s title whose stored price equals
`p`'s price. -/
def cachedPriceMatches (r : RedisState) (p : Product) : Prop :=
  ∃ q, r.get (product_key p) = some q ∧ q.product_price = p.product_price

/-- A benign test environment: templated URLs, every fetch succeeding with
a page that has no listing containers. -/
def env0 : ScrapeEnv :=
  ⟨fun p => "https://example.test/page/" ++ toString p ++ "/",
   fun _ _ => .ok ⟨[]⟩⟩

/-- A test environment whose every fetch raises a `RequestException`. -/
def envFail : ScrapeEnv :=
  ⟨fun p => "u" ++ toString p, fun _ _ => .error "ConnectionError"⟩

/-- A test environment whose single page lists the same title twice at two
different prices. -/
def envDup : ScrapeEnv :=
  ⟨fun p => "u" ++ toString p,
   fun _ _ => .ok ⟨[⟨some "A", some "10", some "i"⟩,
                   ⟨some "A", some "20", some "i"⟩]⟩⟩

/-- A test environment whose single page lists two distinct titles. -/
def envTwo : ScrapeEnv :=
  ⟨fun p => "u" ++ toString p,
   fun _ _ => .ok ⟨[⟨some "A", some "10", some "i"⟩,
                   ⟨some "B", some "20", some "j"⟩]⟩⟩

/-- The empty initial world: empty cache, empty filesystem, no output. -/
def st0 : ScrapeState := ⟨⟨[]⟩, ⟨[], []⟩, [], []⟩

/-! ## Lemmas about the redis store -/

theorem RedisState.get_set_same (r : RedisState) (k : String) (v : Product) :
    (r.set k v).get k = some v := by
  simp [RedisState.get, RedisState.set]

theorem find_filter_ne (k k2 : String) (h : k2 ≠ k) (l : List (String × Product)) :
    (l.filter (fun kv => kv.1 != k)).find? (fun kv => kv.1 == k2)
      = l.find? (fun kv => kv.1 == k2) := by
  induction l with
  | nil => rfl
  | cons a t ih =>
    rcases eq_or_ne a.1 k with hak | hak
    · have hbne : (a.1 != k) = false := by simp [hak]
      have hbeq : (a.1 == k2) = false := by
        simp only [beq_eq_false_iff_ne]
        rw [hak]
        exact fun he => h he.symm
      simp [List.filter_cons, List.find?_cons, hbne, hbeq, ih]
    · have hbne : (a.1 != k) = true := by simp [hak]
      cases hbeq : (a.1 == k2) <;>
        simp [List.filter_cons, List.find?_cons, hbne, hbeq, ih]

theorem RedisState.get_set_ne (r : RedisState) (k k2 : String) (v : Product)
    (h : k2 ≠ k) : (r.set k v).get k2 = r.get k2 := by
  have hk : (k == k2) = false := by
    rw [beq_eq_false_iff_ne]; exact fun he => h he.symm
  simp [RedisState.get, RedisState.set, List.find?_cons, hk, find_filter_ne k k2 h]

/-! ## C1: the ChangeCache three-way case split -/

/-- C1: for every product `p`, `cache_product` is a three-way case split on
the entry stored under `p`'s title: absent entry — store the product,
return `true`; present entry with equal price — return `false` and leave
the store untouched (whatever the stored image path is); present entry
with different price — overwrite with `p`, return `true`. -/
theorem C1_cache_product_cases (r : RedisState) (p : Product) :
    (r.get (product_key p) = none →
      cache_product r p = (true, r.set (product_key p) p))
    ∧ (∀ c, r.get (product_key p) = some c → c.product_price = p.product_price →
        cache_product r p = (false, r))
    ∧ (∀ c, r.get (product_key p) = some c → c.product_price ≠ p.product_price →
        cache_product r p = (true, r.set (product_key p) p)) := by
  refine ⟨fun h => ?_, fun c hc he => ?_, fun c hc hne => ?_⟩
  · simp [cache_product, h]
  · simp [cache_product, hc, he]
  · simp [cache_product, hc, hne]

/-- Concrete instantiation of `C1_cache_product_cases`: an empty store, then
a same-price different-image product (no write), then a changed price
(overwrite). -/
theorem C1_witness :
    cache_product ⟨[]⟩ ⟨"A", "10", "img1"⟩
      = (true, RedisState.set ⟨[]⟩ (product_key ⟨"A", "10", "img1"⟩) ⟨"A", "10", "img1"⟩)
    ∧ cache_product (RedisState.set ⟨[]⟩ (product_key ⟨"A", "10", "img1"⟩) ⟨"A", "10", "img1"⟩)
        ⟨"A", "10", "img2"⟩
      = (false, RedisState.set ⟨[]⟩ (product_key ⟨"A", "10", "img1"⟩) ⟨"A", "10", "img1"⟩)
    ∧ cache_product (RedisState.set ⟨[]⟩ (product_key ⟨"A", "10", "img1"⟩) ⟨"A", "10", "img1"⟩)
        ⟨"A", "20", "img1"⟩
      = (true, RedisState.set
          (RedisState.set ⟨[]⟩ (product_key ⟨"A", "10", "img1"⟩) ⟨"A", "10", "img1"⟩)
          (product_key ⟨"A", "20", "img1"⟩) ⟨"A", "20", "img1"⟩) :=
  ⟨(C1_cache_product_cases ⟨[]⟩ ⟨"A", "10", "img1"⟩).1 (by decide),
   (C1_cache_product_cases _ ⟨"A", "10", "img2"⟩).2.1 ⟨"A", "10", "img1"⟩ (by decide) (by decide),
   (C1_cache_product_cases _ ⟨"A", "20", "img1"⟩).2.2 ⟨"A", "10", "img1"⟩ (by decide) (by decide)⟩

/-! ## C5, C6, C10: the fetch retry loop -/

theorem fetch_page_go_all_fail (backend : Int → AttemptOutcome)
    (err : Int → String) (retries delay : Int)
    (hb : ∀ n, backend n = .failure (err n)) :
    ∀ (n : Nat) (a : Int), a + n = retries → 1 ≤ n →
      fetch_page_go backend retries delay (rangeFrom a n)
        = ⟨n, List.replicate (n - 1) delay, .raised (err (retries - 1))⟩ := by
  intro n
  induction n with
  | zero => intro a _ h1; omega
  | succ m ih =>
    intro a ha _
    cases m with
    | zero =>
      have hnot : ¬ (a < retries - 1) := by omega
      have hlast : a = retries - 1 := by omega
      show fetch_page_go backend retries delay (a :: rangeFrom (a + 1) 0) = _
      simp only [fetch_page_go, hb a]
      rw [if_neg hnot, hlast]
      rfl
    | succ m2 =>
      have hlt : a < retries - 1 := by omega
      have hrec := ih (a + 1) (by omega) (by omega)
      have hunfold : fetch_page_go backend retries delay (a :: rangeFrom (a + 1) (m2 + 1))
          = match backend a with
            | .success c => ⟨1, [], .content c⟩
            | .failure e =>
              if a < retries - 1 then
                let t := fetch_page_go backend retries delay (rangeFrom (a + 1) (m2 + 1))
                ⟨t.requests + 1, delay :: t.sleeps, t.result⟩
              else ⟨1, [], .raised e⟩ := rfl
      show fetch_page_go backend retries delay (a :: rangeFrom (a + 1) (m2 + 1)) = _
      rw [hunfold, hb a]
      show (if a < retries - 1 then
              let t := fetch_page_go backend retries delay (rangeFrom (a + 1) (m2 + 1))
              (⟨t.requests + 1, delay :: t.sleeps, t.result⟩ : FetchTrace)
            else ⟨1, [], .raised (err a)⟩) = _
      rw [if_pos hlt, hrec]
      simp [List.replicate_succ]

/-- C5: with `retries = r ≥ 1` and a backend failing on every attempt,
`fetch_page` makes exactly `r` requests, sleeps exactly `r - 1` times (each
for the configured delay), and raises the error of the terminal attempt. -/
theorem C5_fetch_all_fail (backend : Int → AttemptOutcome) (err : Int → String)
    (retries delay : Int) (hr : 1 ≤ retries)
    (hb : ∀ n, backend n = .failure (err n)) :
    fetch_page backend retries delay
      = ⟨retries.toNat, List.replicate (retries.toNat - 1) delay,
         .raised (err (retries - 1))⟩ :=
  fetch_page_go_all_fail backend err retries delay hb retries.toNat 0
    (by omega) (by omega)

/-- Concrete instantiation of `C5_fetch_all_fail`: 3 retries, every attempt
failing, delay 5: three requests, two sleeps of 5, terminal error raised. -/
theorem C5_witness :
    fetch_page (fun n => .failure ("err" ++ toString n)) 3 5
      = ⟨3, [5, 5], .raised "err2"⟩ := by
  rw [C5_fetch_all_fail (fun n => .failure ("err" ++ toString n))
    (fun n => "err" ++ toString n) 3 5 (by omega) (fun n => rfl)]
  rfl

/-- C6: with `retries = 3` and a backend that fails on attempts 0 and 1 and
succeeds on attempt 2, `fetch_page` returns the successful content and
performs exactly two sleeps, each of the configured delay. -/
theorem C6_fetch_third_attempt_succeeds (backend : Int → AttemptOutcome)
    (delay : Int) (e0 e1 c : String)
    (h0 : backend 0 = .failure e0) (h1 : backend 1 = .failure e1)
    (h2 : backend 2 = .success c) :
    fetch_page backend 3 delay = ⟨3, [delay, delay], .content c⟩ := by
  show fetch_page_go backend 3 delay (rangeFrom 0 (Int.toNat 3)) = _
  norm_num [rangeFrom, fetch_page_go, h0, h1, h2]

/-- Concrete instantiation of `C6_fetch_third_attempt_succeeds`. -/
theorem C6_witness :
    fetch_page
      (fun n => if n = 0 then .failure "a" else if n = 1 then .failure "b"
                else .success "ok") 3 5
      = ⟨3, [5, 5], .content "ok"⟩ :=
  C6_fetch_third_attempt_succeeds _ 5 "a" "b" "ok" (by decide) (by decide) (by decide)

/-- C10: with `retries ≤ 0`, the loop `for attempt in range(self.retries)`
is never entered: `fetch_page` makes no request, performs no sleep, raises
nothing, and falls through returning Python `None`. -/
theorem C10_fetch_nonpositive_retries (backend : Int → AttemptOutcome)
    (retries delay : Int) (hr : retries ≤ 0) :
    fetch_page backend retries delay = ⟨0, [], .noneResult⟩ := by
  have h0 : retries.toNat = 0 := by omega
  show fetch_page_go backend retries delay (rangeFrom 0 retries.toNat) = _
  rw [h0]
  rfl

/-- Concrete instantiation of `C10_fetch_nonpositive_retries` at
`retries = 0` (and a backend that would succeed if it were ever called). -/
theorem C10_witness :
    fetch_page (fun _ => .success "page") 0 5 = ⟨0, [], .noneResult⟩ :=
  C10_fetch_nonpositive_retries (fun _ => .success "page") 0 5 (by omega)

/-! ## C7, C8: the parser -/

theorem parseListings_wellformed (ls : List Listing)
    (h : ∀ l ∈ ls, l.title.isSome ∧ l.price.isSome ∧ l.imageSrc.isSome) :
    parseListings ls = .ok (ls.map extractListing) := by
  induction ls with
  | nil => rfl
  | cons l t ih =>
    obtain ⟨h1, h2, h3⟩ := h l (by simp)
    obtain ⟨a, ha⟩ := Option.isSome_iff_exists.mp h1
    obtain ⟨b, hb⟩ := Option.isSome_iff_exists.mp h2
    obtain ⟨c, hc⟩ := Option.isSome_iff_exists.mp h3
    have ht := ih (fun x hx => h x (by simp [hx]))
    simp [parseListings, parseListing, ha, hb, hc, ht, extractListing]

/-- C7: a page whose listing containers all carry the expected title, price
and image sub-elements parses to exactly one product per container, in
document order, each field trimmed of surrounding whitespace; a page with
no listing containers parses to the empty list, not an error. -/
theorem C7_parse_wellformed (page : Page)
    (h : ∀ l ∈ page.listings, l.title.isSome ∧ l.price.isSome ∧ l.imageSrc.isSome) :
    parse_page page = .ok (page.listings.map extractListing)
    ∧ (page.listings.map extractListing).length = page.listings.length
    ∧ (page.listings = [] → parse_page page = .ok []) := by
  refine ⟨parseListings_wellformed page.listings h, by simp, fun he => ?_⟩
  unfold parse_page
  rw [he]
  rfl

/-- Concrete instantiation of `C7_parse_wellformed`: two well-formed
listings with surrounding whitespace parse, in order, to trimmed products. -/
theorem C7_witness :
    parse_page ⟨[⟨some " A ", some " 10 ", some " u "⟩,
                 ⟨some "B", some "20", some "v"⟩]⟩
      = .ok [⟨"A", "10", "u"⟩, ⟨"B", "20", "v"⟩]
    ∧ ([⟨some " A ", some " 10 ", some " u "⟩,
        ⟨some "B", some "20", some "v"⟩] : List Listing).length = 2 := by
  have h := C7_parse_wellformed
    ⟨[⟨some " A ", some " 10 ", some " u "⟩, ⟨some "B", some "20", some "v"⟩]⟩
    (by decide)
  exact ⟨by rw [h.1]; rfl, rfl⟩

theorem parseListing_error (l : Listing)
    (h : l.title = none ∨ l.price = none ∨ l.imageSrc = none) :
    parseListing l = .error .malformed := by
  obtain ⟨t, p, i⟩ := l
  rcases t with _ | a <;> rcases p with _ | b <;> rcases i with _ | c <;>
    first
      | rfl
      | simp at h

theorem parseListings_malformed (ls : List Listing)
    (h : ∃ l ∈ ls, l.title = none ∨ l.price = none ∨ l.imageSrc = none) :
    parseListings ls = .error .malformed := by
  induction ls with
  | nil => simp at h
  | cons l t ih =>
    obtain ⟨x, hx, hbad⟩ := h
    rcases List.mem_cons.mp hx with rfl | hxt
    · simp [parseListings, parseListing_error x hbad]
    · cases hpl : parseListing l with
      | error e => cases e; simp [parseListings, hpl]
      | ok p => simp [parseListings, hpl, ih ⟨x, hxt, hbad⟩]

/-- C8: a page containing a listing container that is missing an expected
sub-element (title, price or image source) makes `parse_page` signal the
`MalformedPage` error instead of skipping or swallowing the listing. -/
theorem C8_parse_malformed (page : Page)
    (h : ∃ l ∈ page.listings, l.title = none ∨ l.price = none ∨ l.imageSrc = none) :
    parse_page page = .error .malformed :=
  parseListings_malformed page.listings h

/-- Concrete instantiation of `C8_parse_malformed`: a well-formed listing
followed by one with no price element. -/
theorem C8_witness :
    parse_page ⟨[⟨some "A", some "10", some "u"⟩, ⟨some "B", none, some "v"⟩]⟩
      = .error .malformed :=
  C8_parse_malformed
    ⟨[⟨some "A", some "10", some "u"⟩, ⟨some "B", none, some "v"⟩]⟩
    (by decide)

/-! ## C9: the snapshot writer -/

theorem FS.getFile_writeFile (fs : FS) (p : String) (c : List Product) :
    (fs.writeFile p c).getFile p = some c := by
  simp [FS.getFile, FS.writeFile]

/-- When the artifact path has a nonempty parent directory component,
`save_to_json` succeeds, the artifact afterwards holds exactly the written
sequence (whatever was there before), and the parent directory exists
afterwards. -/
theorem save_to_json_ok (jp : String) (fs : FS) (products : List Product)
    (hdir : dirname jp ≠ "") :
    ∃ fs1, save_to_json jp fs products = .ok fs1
      ∧ fs1.getFile jp = some products
      ∧ dirname jp ∈ fs1.dirs := by
  simp only [save_to_json]
  by_cases hex : fs.pathExists (dirname jp) = true
  · rw [if_pos hex]
    refine ⟨fs.writeFile jp products, rfl, FS.getFile_writeFile fs jp products, ?_⟩
    have hmem := (Bool.and_eq_true _ _).mp hex
    simpa [FS.writeFile] using of_decide_eq_true hmem.2
  · rw [if_neg hex]
    have hmk : makedirs fs (dirname jp) = .ok ⟨dirname jp :: fs.dirs, fs.files⟩ := by
      unfold makedirs
      rw [if_neg hdir]
    rw [hmk]
    exact ⟨_, rfl, FS.getFile_writeFile _ jp products, by simp [FS.writeFile]⟩

/-- C9 counterexample: for the artifact path `'scraped_products.json'` (the
`Scraper` constructor's documented default), `os.path.dirname` yields the
empty string, `os.path.exists('')` is false, and `os.makedirs('')` raises
`FileNotFoundError`, so `save_to_json` raises instead of writing the
snapshot — the claim does not hold for every configured artifact path. -/
theorem C9_counterexample :
    save_to_json "scraped_products.json" ⟨[], []⟩ [⟨"A", "10", "u"⟩]
      = .error .fileNotFound := rfl

/-- C9 (amended): for every product list and every configured artifact path
whose parent directory component is nonempty, `save_to_json` serializes the
full sequence to that path, creating the missing parent directory, and
fully overwrites any prior content: the resulting artifact holds exactly
the given sequence regardless of the prior filesystem contents. -/
theorem C9_amended_save (jp : String) (fs : FS) (products : List Product)
    (hdir : dirname jp ≠ "") :
    ∃ fs1, save_to_json jp fs products = .ok fs1
      ∧ fs1.getFile jp = some products
      ∧ dirname jp ∈ fs1.dirs :=
  save_to_json_ok jp fs products hdir

/-- Concrete instantiation of `C9_amended_save`: writing over a prior
artifact with different content replaces it entirely. -/
theorem C9_witness :
    save_to_json "d/f.json" ⟨["d"], [("d/f.json", [⟨"Old", "1", "o"⟩])]⟩ [⟨"A", "10", "u"⟩]
      = .ok ⟨["d"], [("d/f.json", [⟨"A", "10", "u"⟩])]⟩
    ∧ FS.getFile ⟨["d"], [("d/f.json", [⟨"A", "10", "u"⟩])]⟩ "d/f.json"
      = some [⟨"A", "10", "u"⟩] := by
  obtain ⟨fs1, hsave, hget, hmem⟩ := C9_amended_save "d/f.json"
    ⟨["d"], [("d/f.json", [⟨"Old", "1", "o"⟩])]⟩ [⟨"A", "10", "u"⟩] (by decide)
  have hfs1 : fs1 = ⟨["d"], [("d/f.json", [⟨"A", "10", "u"⟩])]⟩ := by
    have h2 : (Except.ok fs1 : Except SaveError FS)
        = .ok ⟨["d"], [("d/f.json", [⟨"A", "10", "u"⟩])]⟩ := by
      rw [← hsave]
      rfl
    exact Except.ok.inj h2
  rw [hfs1] at hsave hget
  exact ⟨hsave, hget⟩

/-! ## C2: pages visited by the scrape loop -/

/-- One-step unfolding of `scrapeLoop` on a nonempty page list (the local
`let`s of the definition zeta-reduced). -/
theorem scrapeLoop_cons (env : ScrapeEnv) (lp : Option Int)
    (proxies : Option (String × String)) (page : Int) (rest : List Int)
    (results : List Product) (st : ScrapeState) :
    scrapeLoop env lp proxies (page :: rest) results st
      = match env.fetchPage (env.base_url page) proxies with
        | .error e => .error (.fetchFailure e,
            ⟨st.redis, st.fs, st.notifications, st.fetched ++ [(page, env.base_url page)]⟩)
        | .ok content =>
          match parse_page content with
          | .error _ => .error (.malformedPage,
              ⟨st.redis, st.fs, st.notifications, st.fetched ++ [(page, env.base_url page)]⟩)
          | .ok page_results =>
            if breakCond lp page then
              .ok ((cacheAll st.redis results page_results).1,
                   ⟨(cacheAll st.redis results page_results).2, st.fs, st.notifications,
                    st.fetched ++ [(page, env.base_url page)]⟩)
            else
              scrapeLoop env lp proxies rest (cacheAll st.redis results page_results).1
                ⟨(cacheAll st.redis results page_results).2, st.fs, st.notifications,
                 st.fetched ++ [(page, env.base_url page)]⟩ := rfl

theorem takeUntilBreak_no_break (lp : Option Int) (pages : List Int)
    (h : ∀ p ∈ pages, breakCond lp p = false) :
    takeUntilBreak lp pages = pages := by
  induction pages with
  | nil => rfl
  | cons p rest ih =>
    simp [takeUntilBreak, h p (List.mem_cons_self p rest),
          ih (fun q hq => h q (List.mem_cons_of_mem p hq))]

theorem takeUntilBreak_rangeFrom (k : Int) (hk : 1 ≤ k) :
    ∀ (n : Nat) (a : Int), a + n = k + 1 →
      takeUntilBreak (some k) (rangeFrom a n) = rangeFrom a n := by
  intro n
  induction n with
  | zero => intro a _; rfl
  | succ m ih =>
    intro a ha
    cases m with
    | zero =>
      show takeUntilBreak (some k) (a :: rangeFrom (a + 1) 0) = _
      simp [takeUntilBreak, rangeFrom]
    | succ m2 =>
      have hb : breakCond (some k) a = false := by
        show (if k = 0 then false else decide (a ≥ k)) = false
        rw [if_neg (by omega : ¬ k = 0)]
        exact decide_eq_false (by omega)
      show takeUntilBreak (some k) (a :: rangeFrom (a + 1) (m2 + 1)) = _
      rw [takeUntilBreak, hb]
      simp only [Bool.false_eq_true, if_false]
      rw [ih (a + 1) (by omega)]
      rfl

theorem takeUntilBreak_pagesToVisit (lp : Option Int) :
    takeUntilBreak lp (pagesToVisit lp) = pagesToVisit lp := by
  match lp with
  | none => exact takeUntilBreak_no_break none _ (fun p _ => rfl)
  | some k =>
    rcases lt_trichotomy k 0 with hneg | rfl | hpos
    · have h0 : (limitOr10 (some k)).toNat = 0 := by
        show (if k = 0 then (10 : Int) else k).toNat = 0
        rw [if_neg (by omega : ¬ k = 0)]
        omega
      unfold pagesToVisit
      rw [h0]
      rfl
    · exact takeUntilBreak_no_break (some 0) _ (fun p _ => by unfold breakCond; simp)
    · have hl : limitOr10 (some k) = k := by
        show (if k = 0 then (10 : Int) else k) = k
        rw [if_neg (by omega : ¬ k = 0)]
      unfold pagesToVisit
      rw [hl]
      exact takeUntilBreak_rangeFrom k (by omega) k.toNat 1 (by omega)

theorem scrapeLoop_fetched (env : ScrapeEnv) (lp : Option Int)
    (proxies : Option (String × String))
    (hok : ∀ u, ∃ pg ps, env.fetchPage u proxies = .ok pg ∧ parse_page pg = .ok ps) :
    ∀ (pages : List Int) (results : List Product) (st : ScrapeState),
      fetchedOf (scrapeLoop env lp proxies pages results st)
        = st.fetched ++ (takeUntilBreak lp pages).map (fun i => (i, env.base_url i)) := by
  intro pages
  induction pages with
  | nil => intro results st; simp [scrapeLoop, fetchedOf, stateOf, takeUntilBreak]
  | cons p rest ih =>
    intro results st
    obtain ⟨pg, ps, hf, hp⟩ := hok (env.base_url p)
    by_cases hb : breakCond lp p = true
    · simp [scrapeLoop_cons, hf, hp, hb, fetchedOf, stateOf, takeUntilBreak]
    · simp only [scrapeLoop_cons, hf, hp, if_neg hb, ih]
      simp [takeUntilBreak, hb, fetchedOf, stateOf]

theorem scrape_fetched (env : ScrapeEnv) (jp : String) (lp : Option Int)
    (proxy : Option String) (st : ScrapeState) :
    fetchedOf (scrape env jp lp proxy st)
      = fetchedOf (scrapeLoop env lp (mkProxies proxy) (pagesToVisit lp) [] st) := by
  unfold scrape
  cases hl : scrapeLoop env lp (mkProxies proxy) (pagesToVisit lp) [] st with
  | error es => rfl
  | ok x =>
    obtain ⟨results, st1⟩ := x
    cases hs : save_to_json jp st1.fs results with
    | error e => simp [scrape, hs, fetchedOf, stateOf]
    | ok fs1 => simp [scrape, hs, fetchedOf, stateOf]

/-- C2 counterexample: two refutations of the claim as stated.  First, a
supplied `pageLimit` of `0` does not fetch `0` pages — `0` is falsy in
Python, so `limit_pages or 10` yields `10` and the break test
`limit_pages and page >= limit_pages` never fires: ten pages are fetched.
Second, the loop does not visit all of `1..N` in every invocation either:
when the first fetch raises (here with `pageLimit = 3`), exactly one page
is fetched before the run aborts, so the visits-pages-`1..N` reading needs
the run's fetches and parses to succeed. -/
theorem C2_counterexample :
    ((fetchedOf (scrape env0 "d/f.json" (some 0) none st0)).length = 10
      ∧ (10 : Nat) ≠ 0)
    ∧ (fetchedOf (scrape envFail "d/f.json" (some 3) none st0)).length = 1
      ∧ (1 : Nat) ≠ 3 :=
  ⟨⟨rfl, by omega⟩, rfl, by omega⟩

/-- C2 (amended): in an invocation of `scrape` whose fetches all succeed
and parse, the page loop visits exactly the page indices `1..N` in order,
where `N = pageLimit` when a nonzero `pageLimit` is supplied (no pages at
all for a negative limit) and `N = 10` when `pageLimit` is absent or `0` —
a supplied limit of `0` behaves like the absent default, not like zero
pages — and each visited page is fetched at the URL obtained by
substituting its index into the URL template. -/
theorem C2_amended_pages (env : ScrapeEnv) (jp : String) (lp : Option Int)
    (proxy : Option String) (st : ScrapeState)
    (hok : ∀ u, ∃ pg ps, env.fetchPage u (mkProxies proxy) = .ok pg
                          ∧ parse_page pg = .ok ps) :
    fetchedOf (scrape env jp lp proxy st)
      = st.fetched
        ++ (rangeFrom 1 (limitOr10 lp).toNat).map (fun i => (i, env.base_url i)) := by
  rw [scrape_fetched,
      scrapeLoop_fetched env lp (mkProxies proxy) hok (pagesToVisit lp) [] st,
      takeUntilBreak_pagesToVisit]
  rfl

/-- Concrete instantiation of `C2_amended_pages`: a supplied limit of 3
fetches exactly pages 1, 2, 3 at the templated URLs. -/
theorem C2_witness :
    fetchedOf (scrape env0 "d/f.json" (some 3) none st0)
      = [(1, "https://example.test/page/1/"), (2, "https://example.test/page/2/"),
         (3, "https://example.test/page/3/")] := by
  rw [C2_amended_pages env0 "d/f.json" (some 3) none st0
      (fun u => ⟨⟨[]⟩, [], rfl, rfl⟩)]
  rfl

/-! ## C4: failures abort the invocation -/

theorem scrapeLoop_fs_notifications (env : ScrapeEnv) (lp : Option Int)
    (proxies : Option (String × String)) :
    ∀ (pages : List Int) (results : List Product) (st : ScrapeState),
      (stateOf (scrapeLoop env lp proxies pages results st)).fs = st.fs
      ∧ (stateOf (scrapeLoop env lp proxies pages results st)).notifications
          = st.notifications := by
  intro pages
  induction pages with
  | nil => intro results st; exact ⟨rfl, rfl⟩
  | cons p rest ih =>
    intro results st
    cases hf : env.fetchPage (env.base_url p) proxies with
    | error e => simp [scrapeLoop_cons, hf, stateOf]
    | ok content =>
      cases hp : parse_page content with
      | error pe => simp [scrapeLoop_cons, hf, hp, stateOf]
      | ok ps =>
        by_cases hb : breakCond lp p = true
        · simp [scrapeLoop_cons, hf, hp, hb, stateOf]
        · simp only [scrapeLoop_cons, hf, hp, if_neg hb]
          exact ih _ _

/-- C4: when a fetch or parse step fails on some page, the failure
propagates out of `scrape` uncaught, no snapshot is written and no
notification is sent in that invocation (the aborted state keeps the
filesystem and notification list of the initial state; redis mutations
from earlier pages of the run are allowed to remain in the carried state). -/
theorem C4_failure_propagates (env : ScrapeEnv) (jp : String) (lp : Option Int)
    (proxy : Option String) (st : ScrapeState) (e : ScrapeError) (stE : ScrapeState)
    (hloop : scrapeLoop env lp (mkProxies proxy) (pagesToVisit lp) [] st
              = .error (e, stE)) :
    scrape env jp lp proxy st = .error (e, stE)
    ∧ stE.fs = st.fs ∧ stE.notifications = st.notifications := by
  have hpre := scrapeLoop_fs_notifications env lp (mkProxies proxy)
    (pagesToVisit lp) [] st
  rw [hloop] at hpre
  refine ⟨?_, hpre.1, hpre.2⟩
  unfold scrape
  rw [hloop]

/-- Concrete instantiation of `C4_failure_propagates`: the first fetch
raises, `scrape` propagates it, and the carried state has the original
(empty) filesystem and notifications. -/
theorem C4_witness :
    scrape envFail "d/f.json" (some 2) none st0
      = .error (.fetchFailure "ConnectionError", ⟨⟨[]⟩, ⟨[], []⟩, [], [(1, "u1")]⟩)
    ∧ (⟨⟨[]⟩, ⟨[], []⟩, [], [(1, "u1")]⟩ : ScrapeState).fs = st0.fs
    ∧ (⟨⟨[]⟩, ⟨[], []⟩, [], [(1, "u1")]⟩ : ScrapeState).notifications
        = st0.notifications :=
  C4_failure_propagates envFail "d/f.json" (some 2) none st0
    (.fetchFailure "ConnectionError") ⟨⟨[]⟩, ⟨[], []⟩, [], [(1, "u1")]⟩ rfl

/-! ## C3: persist, notify, return — and the second-run consequence -/

theorem string_append_cancel_left (a b c : String) (h : a ++ b = a ++ c) :
    b = c := by
  have hd : a.data ++ b.data = a.data ++ c.data := by
    rw [← String.data_append, ← String.data_append, h]
  have hbc : b.data = c.data := List.append_cancel_left hd
  cases b
  cases c
  exact congrArg String.mk hbc

theorem product_key_inj (p q : Product) (h : product_key p = product_key q) :
    p.product_title = q.product_title :=
  string_append_cancel_left "product:" _ _ h

theorem product_key_congr (p q : Product) (h : p.product_title = q.product_title) :
    product_key p = product_key q := by
  unfold product_key
  rw [h]

theorem cache_product_establishes (r : RedisState) (p : Product) :
    cachedPriceMatches (cache_product r p).2 p := by
  unfold cache_product
  cases hg : r.get (product_key p) with
  | none =>
    exact ⟨p, RedisState.get_set_same r (product_key p) p, rfl⟩
  | some c =>
    by_cases hp : c.product_price = p.product_price
    · have hb : (c.product_price == p.product_price) = true := beq_iff_eq.mpr hp
      show cachedPriceMatches
        (if c.product_price == p.product_price then (false, r)
         else (true, r.set (product_key p) p)).2 p
      rw [hb]
      exact ⟨c, hg, hp⟩
    · have hb : (c.product_price == p.product_price) = false :=
        beq_eq_false_iff_ne.mpr hp
      show cachedPriceMatches
        (if c.product_price == p.product_price then (false, r)
         else (true, r.set (product_key p) p)).2 p
      rw [hb]
      exact ⟨p, RedisState.get_set_same r (product_key p) p, rfl⟩

theorem cache_product_preserves (r : RedisState) (p x : Product)
    (hx : cachedPriceMatches r x)
    (hpx : p.product_title = x.product_title → p.product_price = x.product_price) :
    cachedPriceMatches (cache_product r p).2 x := by
  obtain ⟨q, hq, hqp⟩ := hx
  by_cases ht : p.product_title = x.product_title
  · have hkey : product_key p = product_key x := product_key_congr p x ht
    have hget : r.get (product_key p) = some q := by rw [hkey]; exact hq
    have hb : (q.product_price == p.product_price) = true :=
      beq_iff_eq.mpr (by rw [hqp, hpx ht])
    unfold cache_product
    rw [hget]
    show cachedPriceMatches
      (if q.product_price == p.product_price then (false, r)
       else (true, r.set (product_key p) p)).2 x
    rw [hb]
    exact ⟨q, hq, hqp⟩
  · have hkey : product_key x ≠ product_key p :=
      fun he => ht (product_key_inj x p he).symm
    unfold cache_product
    cases hg : r.get (product_key p) with
    | none =>
      exact ⟨q, by
        show (r.set (product_key p) p).get (product_key x) = some q
        rw [RedisState.get_set_ne r (product_key p) (product_key x) p hkey]
        exact hq, hqp⟩
    | some c =>
      by_cases hcp : c.product_price = p.product_price
      · have hb : (c.product_price == p.product_price) = true := beq_iff_eq.mpr hcp
        show cachedPriceMatches
          (if c.product_price == p.product_price then (false, r)
           else (true, r.set (product_key p) p)).2 x
        rw [hb]
        exact ⟨q, hq, hqp⟩
      · have hb : (c.product_price == p.product_price) = false :=
          beq_eq_false_iff_ne.mpr hcp
        show cachedPriceMatches
          (if c.product_price == p.product_price then (false, r)
           else (true, r.set (product_key p) p)).2 x
        rw [hb]
        exact ⟨q, by
          show (r.set (product_key p) p).get (product_key x) = some q
          rw [RedisState.get_set_ne r (product_key p) (product_key x) p hkey]
          exact hq, hqp⟩

/-- One-step unfolding of `cacheAll` on a nonempty product list. -/
theorem cacheAll_cons (redis : RedisState) (acc : List Product) (p : Product)
    (rest : List Product) :
    cacheAll redis acc (p :: rest)
      = if (cache_product redis p).1 then
          cacheAll (cache_product redis p).2 (acc ++ [p]) rest
        else cacheAll (cache_product redis p).2 acc rest := rfl

theorem cacheAll_preserves (x : Product) :
    ∀ (ps : List Product) (r : RedisState) (acc : List Product),
      cachedPriceMatches r x →
      (∀ q ∈ ps, q.product_title = x.product_title →
        q.product_price = x.product_price) →
      cachedPriceMatches (cacheAll r acc ps).2 x := by
  intro ps
  induction ps with
  | nil => intro r acc hx _; exact hx
  | cons p rest ih =>
    intro r acc hx hcons
    have hkeep : cachedPriceMatches (cache_product r p).2 x :=
      cache_product_preserves r p x hx
        (fun ht => hcons p (List.mem_cons_self p rest) ht)
    rw [cacheAll_cons]
    by_cases hb : (cache_product r p).1 = true
    · rw [if_pos hb]
      exact ih _ _ hkeep (fun q hq => hcons q (List.mem_cons_of_mem p hq))
    · rw [if_neg hb]
      exact ih _ _ hkeep (fun q hq => hcons q (List.mem_cons_of_mem p hq))

theorem cacheAll_establishes :
    ∀ (ps : List Product) (r : RedisState) (acc : List Product),
      PriceConsistent ps →
      ∀ x ∈ ps, cachedPriceMatches (cacheAll r acc ps).2 x := by
  intro ps
  induction ps with
  | nil => intro r acc _ x hx; exact absurd hx (List.not_mem_nil x)
  | cons p rest ih =>
    intro r acc hcons x hx
    rw [cacheAll_cons]
    rcases List.mem_cons.mp hx with rfl | hxr
    · have h1 : cachedPriceMatches (cache_product r x).2 x :=
        cache_product_establishes r x
      have hrest : ∀ q ∈ rest, q.product_title = x.product_title →
          q.product_price = x.product_price :=
        fun q hq ht =>
          hcons q (List.mem_cons_of_mem x hq) x (List.mem_cons_self x rest) ht
      by_cases hb : (cache_product r x).1 = true
      · rw [if_pos hb]; exact cacheAll_preserves x rest _ _ h1 hrest
      · rw [if_neg hb]; exact cacheAll_preserves x rest _ _ h1 hrest
    · have hconsr : PriceConsistent rest :=
        fun a ha b hbm hab =>
          hcons a (List.mem_cons_of_mem p ha) b (List.mem_cons_of_mem p hbm) hab
      by_cases hb : (cache_product r p).1 = true
      · rw [if_pos hb]; exact ih _ _ hconsr x hxr
      · rw [if_neg hb]; exact ih _ _ hconsr x hxr

theorem cacheAll_noop :
    ∀ (ps : List Product) (r : RedisState) (acc : List Product),
      (∀ p ∈ ps, cachedPriceMatches r p) →
      cacheAll r acc ps = (acc, r) := by
  intro ps
  induction ps with
  | nil => intro r acc _; rfl
  | cons p rest ih =>
    intro r acc h
    obtain ⟨q, hq, hqp⟩ := h p (List.mem_cons_self p rest)
    have hcp : cache_product r p = (false, r) := by
      unfold cache_product
      rw [hq]
      show (if q.product_price == p.product_price then (false, r)
            else (true, r.set (product_key p) p)) = (false, r)
      rw [beq_iff_eq.mpr hqp]
      rfl
    rw [cacheAll_cons, hcp]
    show cacheAll r acc rest = (acc, r)
    exact ih r acc (fun y hy => h y (List.mem_cons_of_mem p hy))

theorem priceConsistent_append_left (as bs : List Product)
    (h : PriceConsistent (as ++ bs)) : PriceConsistent as :=
  fun p hp q hq => h p (List.mem_append_left bs hp) q (List.mem_append_left bs hq)

theorem priceConsistent_append_right (as bs : List Product)
    (h : PriceConsistent (as ++ bs)) : PriceConsistent bs :=
  fun p hp q hq => h p (List.mem_append_right as hp) q (List.mem_append_right as hq)

theorem scrapeLoop_preserves (env : ScrapeEnv) (lp : Option Int)
    (proxies : Option (String × String)) (x : Product) :
    ∀ (pages : List Int) (results : List Product) (st : ScrapeState)
      (results1 : List Product) (st1 : ScrapeState),
      scrapeLoop env lp proxies pages results st = .ok (results1, st1) →
      cachedPriceMatches st.redis x →
      (∀ q ∈ catalogProducts env proxies (takeUntilBreak lp pages),
        q.product_title = x.product_title → q.product_price = x.product_price) →
      cachedPriceMatches st1.redis x := by
  intro pages
  induction pages with
  | nil =>
    intro results st results1 st1 hok hx _
    injection Except.ok.inj hok with h1 h2
    rw [← h2]
    exact hx
  | cons p rest ih =>
    intro results st results1 st1 hok hx hq
    cases hf : env.fetchPage (env.base_url p) proxies with
    | error e => simp only [scrapeLoop_cons, hf] at hok; simp at hok
    | ok pg =>
      cases hp : parse_page pg with
      | error pe => simp only [scrapeLoop_cons, hf, hp] at hok; simp at hok
      | ok ps =>
        simp only [scrapeLoop_cons, hf, hp] at hok
        have e2 : pageProducts env proxies p = ps := by
          simp only [pageProducts, hf, hp]
        have hkeep : cachedPriceMatches (cacheAll st.redis results ps).2 x := by
          apply cacheAll_preserves x ps st.redis results hx
          intro q hqin ht
          refine hq q ?_ ht
          by_cases hb : breakCond lp p = true
          · have e1 : takeUntilBreak lp (p :: rest) = [p] := by
              show (if breakCond lp p then [p] else p :: takeUntilBreak lp rest) = [p]
              rw [if_pos hb]
            rw [e1]
            show q ∈ pageProducts env proxies p ++ catalogProducts env proxies []
            rw [e2]
            exact List.mem_append_left _ hqin
          · have e1 : takeUntilBreak lp (p :: rest) = p :: takeUntilBreak lp rest := by
              show (if breakCond lp p then [p] else p :: takeUntilBreak lp rest) = _
              rw [if_neg hb]
            rw [e1]
            show q ∈ pageProducts env proxies p
                ++ catalogProducts env proxies (takeUntilBreak lp rest)
            rw [e2]
            exact List.mem_append_left _ hqin
        by_cases hb : breakCond lp p = true
        · rw [if_pos hb] at hok
          injection Except.ok.inj hok with h1 h2
          rw [← h2]
          exact hkeep
        · rw [if_neg hb] at hok
          apply ih _ _ _ _ hok hkeep
          intro q hqin ht
          refine hq q ?_ ht
          have e1 : takeUntilBreak lp (p :: rest) = p :: takeUntilBreak lp rest := by
            show (if breakCond lp p then [p] else p :: takeUntilBreak lp rest) = _
            rw [if_neg hb]
          rw [e1]
          show q ∈ pageProducts env proxies p
              ++ catalogProducts env proxies (takeUntilBreak lp rest)
          exact List.mem_append_right _ hqin

theorem scrapeLoop_establishes (env : ScrapeEnv) (lp : Option Int)
    (proxies : Option (String × String)) :
    ∀ (pages : List Int) (results : List Product) (st : ScrapeState)
      (results1 : List Product) (st1 : ScrapeState),
      scrapeLoop env lp proxies pages results st = .ok (results1, st1) →
      PriceConsistent (catalogProducts env proxies (takeUntilBreak lp pages)) →
      ∀ x ∈ catalogProducts env proxies (takeUntilBreak lp pages),
        cachedPriceMatches st1.redis x := by
  intro pages
  induction pages with
  | nil =>
    intro results st results1 st1 _ _ x hx
    exact absurd hx (List.not_mem_nil x)
  | cons p rest ih =>
    intro results st results1 st1 hok hcons x hx
    cases hf : env.fetchPage (env.base_url p) proxies with
    | error e => simp only [scrapeLoop_cons, hf] at hok; simp at hok
    | ok pg =>
      cases hp : parse_page pg with
      | error pe => simp only [scrapeLoop_cons, hf, hp] at hok; simp at hok
      | ok ps =>
        simp only [scrapeLoop_cons, hf, hp] at hok
        have e2 : pageProducts env proxies p = ps := by
          simp only [pageProducts, hf, hp]
        by_cases hb : breakCond lp p = true
        · have e1 : takeUntilBreak lp (p :: rest) = [p] := by
            show (if breakCond lp p then [p] else p :: takeUntilBreak lp rest) = [p]
            rw [if_pos hb]
          have ecat : catalogProducts env proxies (takeUntilBreak lp (p :: rest)) = ps := by
            rw [e1]
            show pageProducts env proxies p ++ catalogProducts env proxies [] = ps
            rw [e2]
            simp [catalogProducts]
          rw [ecat] at hcons hx
          rw [if_pos hb] at hok
          injection Except.ok.inj hok with h1 h2
          rw [← h2]
          exact cacheAll_establishes ps st.redis results hcons x hx
        · have e1 : takeUntilBreak lp (p :: rest) = p :: takeUntilBreak lp rest := by
            show (if breakCond lp p then [p] else p :: takeUntilBreak lp rest) = _
            rw [if_neg hb]
          have ecat : catalogProducts env proxies (takeUntilBreak lp (p :: rest))
              = ps ++ catalogProducts env proxies (takeUntilBreak lp rest) := by
            rw [e1]
            show pageProducts env proxies p
                ++ catalogProducts env proxies (takeUntilBreak lp rest) = _
            rw [e2]
          rw [ecat] at hcons hx
          rw [if_neg hb] at hok
          rcases List.mem_append.mp hx with hxp | hxr
          · have hest : cachedPriceMatches (cacheAll st.redis results ps).2 x :=
              cacheAll_establishes ps st.redis results
                (priceConsistent_append_left _ _ hcons) x hxp
            exact scrapeLoop_preserves env lp proxies x rest _ _ _ _ hok hest
              (fun q hqm ht =>
                hcons q (List.mem_append_right ps hqm) x (List.mem_append_left _ hxp) ht)
          · exact ih _ _ _ _ hok (priceConsistent_append_right _ _ hcons) x hxr

theorem scrapeLoop_unchanged (env : ScrapeEnv) (lp : Option Int)
    (proxies : Option (String × String)) :
    ∀ (pages : List Int) (results0 : List Product) (stl : ScrapeState)
      (r1 : List Product) (s1 : ScrapeState),
      scrapeLoop env lp proxies pages results0 stl = .ok (r1, s1) →
      ∀ (st : ScrapeState),
        (∀ x ∈ catalogProducts env proxies (takeUntilBreak lp pages),
          cachedPriceMatches st.redis x) →
        ∀ results, ∃ st2,
          scrapeLoop env lp proxies pages results st = .ok (results, st2)
          ∧ st2.redis = st.redis ∧ st2.fs = st.fs
          ∧ st2.notifications = st.notifications := by
  intro pages
  induction pages with
  | nil =>
    intro results0 stl r1 s1 _ st _ results
    exact ⟨st, rfl, rfl, rfl, rfl⟩
  | cons p rest ih =>
    intro results0 stl r1 s1 hok st hmatch results
    cases hf : env.fetchPage (env.base_url p) proxies with
    | error e => simp only [scrapeLoop_cons, hf] at hok; simp at hok
    | ok pg =>
      cases hp : parse_page pg with
      | error pe => simp only [scrapeLoop_cons, hf, hp] at hok; simp at hok
      | ok ps =>
        simp only [scrapeLoop_cons, hf, hp] at hok
        have e2 : pageProducts env proxies p = ps := by
          simp only [pageProducts, hf, hp]
        have hmem : ∀ q ∈ ps,
            q ∈ catalogProducts env proxies (takeUntilBreak lp (p :: rest)) := by
          intro q hqin
          by_cases hb : breakCond lp p = true
          · have e1 : takeUntilBreak lp (p :: rest) = [p] := by
              show (if breakCond lp p then [p] else p :: takeUntilBreak lp rest) = [p]
              rw [if_pos hb]
            rw [e1]
            show q ∈ pageProducts env proxies p ++ catalogProducts env proxies []
            rw [e2]
            exact List.mem_append_left _ hqin
          · have e1 : takeUntilBreak lp (p :: rest) = p :: takeUntilBreak lp rest := by
              show (if breakCond lp p then [p] else p :: takeUntilBreak lp rest) = _
              rw [if_neg hb]
            rw [e1]
            show q ∈ pageProducts env proxies p
                ++ catalogProducts env proxies (takeUntilBreak lp rest)
            rw [e2]
            exact List.mem_append_left _ hqin
        have hnoop : cacheAll st.redis results ps = (results, st.redis) :=
          cacheAll_noop ps st.redis results (fun q hqin => hmatch q (hmem q hqin))
        by_cases hb : breakCond lp p = true
        · refine ⟨⟨st.redis, st.fs, st.notifications,
                   st.fetched ++ [(p, env.base_url p)]⟩, ?_, rfl, rfl, rfl⟩
          simp only [scrapeLoop_cons, hf, hp, hnoop]
          rw [if_pos hb]
        · rw [if_neg hb] at hok
          have e1 : takeUntilBreak lp (p :: rest) = p :: takeUntilBreak lp rest := by
            show (if breakCond lp p then [p] else p :: takeUntilBreak lp rest) = _
            rw [if_neg hb]
          have hmatch2 : ∀ x ∈ catalogProducts env proxies (takeUntilBreak lp rest),
              cachedPriceMatches st.redis x := by
            intro q hqin
            apply hmatch q
            rw [e1]
            show q ∈ pageProducts env proxies p
                ++ catalogProducts env proxies (takeUntilBreak lp rest)
            exact List.mem_append_right _ hqin
          obtain ⟨st2, hl2, hred, hfs, hnot⟩ :=
            ih _ _ _ _ hok
              ⟨st.redis, st.fs, st.notifications, st.fetched ++ [(p, env.base_url p)]⟩
              hmatch2 results
          refine ⟨st2, ?_, hred, hfs, hnot⟩
          simp only [scrapeLoop_cons, hf, hp, hnoop]
          rw [if_neg hb]
          exact hl2

/-- C3: in an invocation of `scrape` whose page loop completes without
failure (and whose artifact path has a parent directory component, as the
application's configured path does), the scraper persists the accumulated
changed-product list to the snapshot — always, even when empty — then
appends the count-summary notification, then returns that list; and when
the run's parsed catalog assigns a single price per title (the spec's
listing-identity invariant), a second invocation against the unchanged
catalog returns the empty list and overwrites the snapshot with an empty
sequence. -/
theorem C3_persist_notify_return (env : ScrapeEnv) (jp : String) (lp : Option Int)
    (proxy : Option String) (st : ScrapeState) (results : List Product)
    (st1 : ScrapeState)
    (hloop : scrapeLoop env lp (mkProxies proxy) (pagesToVisit lp) [] st
              = .ok (results, st1))
    (hdir : dirname jp ≠ "")
    (hcons : PriceConsistent (catalogProducts env (mkProxies proxy) (pagesToVisit lp))) :
    ∃ fs1, save_to_json jp st1.fs results = .ok fs1
      ∧ fs1.getFile jp = some results
      ∧ scrape env jp lp proxy st
          = .ok (results,
                 ⟨st1.redis, fs1, st1.notifications ++ [scrapeMessage results],
                  st1.fetched⟩)
      ∧ ∃ st4, scrape env jp lp proxy
            ⟨st1.redis, fs1, st1.notifications ++ [scrapeMessage results], st1.fetched⟩
          = .ok ([], st4)
        ∧ st4.fs.getFile jp = some [] := by
  obtain ⟨fs1, hsave, hget, hmem⟩ := save_to_json_ok jp st1.fs results hdir
  refine ⟨fs1, hsave, hget, ?_, ?_⟩
  · unfold scrape
    simp only [hloop, hsave]
  · have hconsT : PriceConsistent (catalogProducts env (mkProxies proxy)
        (takeUntilBreak lp (pagesToVisit lp))) := by
      rw [takeUntilBreak_pagesToVisit]
      exact hcons
    have hmatches := scrapeLoop_establishes env lp (mkProxies proxy)
      (pagesToVisit lp) [] st results st1 hloop hconsT
    obtain ⟨st2, hloop2, hred, hfs, hnot⟩ :=
      scrapeLoop_unchanged env lp (mkProxies proxy) (pagesToVisit lp) [] st
        results st1 hloop
        ⟨st1.redis, fs1, st1.notifications ++ [scrapeMessage results], st1.fetched⟩
        (fun x hx => hmatches x hx) []
    obtain ⟨fs2, hsave2, hget2, hmem2⟩ := save_to_json_ok jp st2.fs [] hdir
    refine ⟨⟨st2.redis, fs2, st2.notifications ++ [scrapeMessage []], st2.fetched⟩,
            ?_, ?_⟩
    · unfold scrape
      simp only [hloop2, hsave2]
    · exact hget2

/-- C3 counterexample: two refutations of the claim as stated.  First,
against a catalog that is unchanged between the two invocations but lists
the same title at two different prices on one page, the second invocation
does not return an empty list: each product again differs from the
(last-written) cache entry for that title, so both are reported changed
again and the snapshot written by the second run holds two entries, not
zero.  Second, the scraper does not persist and notify after every
successfully completed page loop: with the bare-filename artifact path
`'scraped_products.json'` (the constructor default), the loop completes,
but `os.makedirs('')` raises before the snapshot is written, so the
invocation ends in a `persistenceFailure` with no snapshot, no
notification and no returned list — forcing the
nonempty-parent-directory condition of the amended claim. -/
theorem C3_counterexample :
    (match scrape envDup "d/f.json" (some 1) none st0 with
     | .ok (_, st1) =>
       match scrape envDup "d/f.json" (some 1) none st1 with
       | .ok (r2, st2) => (r2.length, st2.fs.getFile "d/f.json")
       | .error _ => (0, none)
     | .error _ => (0, none))
      = (2, some [⟨"A", "10", "i"⟩, ⟨"A", "20", "i"⟩])
    ∧ scrape envTwo "scraped_products.json" (some 1) none st0
      = .error (.persistenceFailure,
          ⟨⟨[("product:B", ⟨"B", "20", "j"⟩), ("product:A", ⟨"A", "10", "i"⟩)]⟩,
           ⟨[], []⟩, [], [(1, "u1")]⟩) :=
  ⟨rfl, rfl⟩

/-- Concrete instantiation of `C3_persist_notify_return`: one page with two
distinct titles; the first run persists both and notifies, the second run
returns the empty list and writes an empty snapshot. -/
theorem C3_witness :
    scrape envTwo "d/f.json" (some 1) none st0
      = .ok ([⟨"A", "10", "i"⟩, ⟨"B", "20", "j"⟩],
             ⟨⟨[("product:B", ⟨"B", "20", "j"⟩), ("product:A", ⟨"A", "10", "i"⟩)]⟩,
              ⟨["d"], [("d/f.json", [⟨"A", "10", "i"⟩, ⟨"B", "20", "j"⟩])]⟩,
              ["Scraped 2 products."], [(1, "u1")]⟩)
    ∧ ∃ st4, scrape envTwo "d/f.json" (some 1) none
          ⟨⟨[("product:B", ⟨"B", "20", "j"⟩), ("product:A", ⟨"A", "10", "i"⟩)]⟩,
           ⟨["d"], [("d/f.json", [⟨"A", "10", "i"⟩, ⟨"B", "20", "j"⟩])]⟩,
           ["Scraped 2 products."], [(1, "u1")]⟩
        = .ok ([], st4)
      ∧ st4.fs.getFile "d/f.json" = some [] := by
  obtain ⟨fs1, hsave, hget, hrun, hsecond⟩ :=
    C3_persist_notify_return envTwo "d/f.json" (some 1) none st0
      [⟨"A", "10", "i"⟩, ⟨"B", "20", "j"⟩]
      ⟨⟨[("product:B", ⟨"B", "20", "j"⟩), ("product:A", ⟨"A", "10", "i"⟩)]⟩,
       ⟨[], []⟩, [], [(1, "u1")]⟩
      rfl (by decide) (by decide)
  have hfs1 : fs1 = ⟨["d"], [("d/f.json", [⟨"A", "10", "i"⟩, ⟨"B", "20", "j"⟩])]⟩ := by
    have h2 : (Except.ok fs1 : Except SaveError FS)
        = .ok ⟨["d"], [("d/f.json", [⟨"A", "10", "i"⟩, ⟨"B", "20", "j"⟩])]⟩ := by
      rw [← hsave]
      rfl
    exact Except.ok.inj h2
  rw [hfs1] at hrun hsecond
  exact ⟨hrun, hsecond⟩

end AtlysScrape
